import Mathlib

/-!
Shallow embedding of `script.py`, a git branch-management and PR-preparation
CLI. External `git` invocations are modelled by an `ExecResult` record (exit
status, captured stdout, captured stderr) supplied as an explicit argument;
everything else is translated directly from the source. Python string
operations are embedded as executable functions on `List Char` so that all
statements can be evaluated on concrete inputs.
-/

/-- Embedding of Python `str.strip()` restricted to ASCII whitespace
(the branch names and URLs involved are ASCII). -/
def trimChars (l : List Char) : List Char :=
  ((l.dropWhile Char.isWhitespace).reverse.dropWhile Char.isWhitespace).reverse

/-- `str.strip()` at the `String` level. -/
def pyStrip (s : String) : String :=
  ⟨trimChars s.data⟩

/-- Embedding of Python `str.split("\n")`: split at every newline, keeping
empty fields, so the empty string yields one empty field. -/
def splitLinesChars : List Char → List (List Char)
  | [] => [[]]
  | '\n' :: rest => [] :: splitLinesChars rest
  | c :: rest =>
    match splitLinesChars rest with
    | [] => [[c]]
    | line :: lines => (c :: line) :: lines

/-- Embedding of Python `str.replace(a, b)` for a single-character pattern
and single-character replacement (used for `replace(":", "/")` and
`replace("_", "-")`). -/
def replaceChar (a b : Char) (l : List Char) : List Char :=
  l.map fun c => if c = a then b else c

/-- Embedding of `repo_url.replace("git@", "https://")` (script.py line 203):
every occurrence of `git@` is rewritten, scanning left to right. -/
def replaceGitAt : List Char → List Char
  | 'g' :: 'i' :: 't' :: '@' :: rest => 'h' :: 't' :: 't' :: 'p' :: 's' :: ':' :: '/' :: '/' :: replaceGitAt rest
  | c :: rest => c :: replaceGitAt rest
  | [] => []

/-- Embedding of `branch.replace("origin/", "", 1)` (script.py line 59):
only the first occurrence of the substring `origin/` is removed, wherever
it occurs in the line. -/
def stripOriginOnce : List Char → List Char
  | [] => []
  | c :: cs =>
    if ("origin/".data).isPrefixOf (c :: cs) then (c :: cs).drop 7
    else c :: stripOriginOnce cs

/-- Python `" ".join(parts)`. -/
def joinSpace : List String → String
  | [] => ""
  | [a] => a
  | a :: b :: rest => a ++ " " ++ joinSpace (b :: rest)

/-- Outcome of launching one external `git` process: whether it exited with
status 0, and the captured standard output and standard error text. -/
structure ExecResult where
  ok : Bool
  stdout : String
  stderr : String
deriving DecidableEq, Repr

/-- Embedding of `execute_git_command` (script.py lines 34-40): on success
return `(True, stdout.strip())`, on failure `(False, stderr.strip())`. -/
def execute_git_command (r : ExecResult) : Bool × String :=
  if r.ok then (true, pyStrip r.stdout) else (false, pyStrip r.stderr)

/-- Embedding of `get_current_branch` (script.py lines 42-45). -/
def get_current_branch (r : ExecResult) : String :=
  let res := execute_git_command r
  if res.1 then res.2 else ""

/-- The filter of the branch loop in `get_remote_branches` (script.py
line 58): keep a trimmed line iff it is nonempty and does not start with
`origin/HEAD`. -/
def keepLine (l : List Char) : Bool :=
  decide (l ≠ []) && ! (("origin/HEAD".data).isPrefixOf l)

/-- The cleaning of a kept line (script.py line 59). -/
def cleanName (l : List Char) : String :=
  ⟨stripOriginOnce l⟩

/-- Python string comparison `a <= b`: lexicographic by code point. -/
def pyLeb : List Char → List Char → Bool
  | [], _ => true
  | _ :: _, [] => false
  | a :: as, b :: bs =>
    if a.toNat < b.toNat then true
    else if b.toNat < a.toNat then false
    else pyLeb as bs

/-- `pyLeb` as a relation on `String`. -/
def pyLe (s t : String) : Prop :=
  pyLeb s.data t.data = true

instance : DecidableRel pyLe := fun s t =>
  inferInstanceAs (Decidable (pyLeb s.data t.data = true))

/-- Python `sorted` on a list of strings: lexicographic by code point,
ascending. -/
def sortStrings (l : List String) : List String :=
  l.insertionSort pyLe

/-- Embedding of `get_remote_branches` (script.py lines 47-62), with the
accumulating `for` loop rendered as a left fold. -/
def get_remote_branches (r : ExecResult) : List String :=
  let res := execute_git_command r
  if !res.1 then []
  else
    let branches := (splitLinesChars res.2.data).foldl
      (fun acc line =>
        let branch := trimChars line
        if keepLine branch then acc ++ [cleanName branch] else acc)
      []
    sortStrings branches

/-- The leading `([a-z]+)(\d+)` match of `is_valid_target_branch`
(script.py lines 69-70): `re.match` anchors at the start only; since a
lowercase letter is never a digit, the regex matches exactly when the
string begins with one or more ASCII lowercase letters followed
immediately by an ASCII digit, and group 1 is the maximal lowercase run. -/
def envPrefix (s : String) : Option String :=
  let letters := s.data.takeWhile fun c => decide ('a' ≤ c) && decide (c ≤ 'z')
  let rest := s.data.drop letters.length
  match letters, rest with
  | [], _ => none
  | _ :: _, c :: _ => if c.isDigit then some ⟨letters⟩ else none
  | _ :: _, [] => none

/-- The fixed environment-order table (script.py line 78). -/
def env_order : List String := ["sbx", "dev", "uat"]

/-- Embedding of `is_valid_target_branch` (script.py lines 64-84): the
`try`-wrapped `list.index` calls become an option match, `ValueError`
becoming `none`. -/
def is_valid_target_branch (source target : String) : Bool :=
  match envPrefix source, envPrefix target with
  | some source_env, some target_env =>
    match env_order.indexOf? source_env, env_order.indexOf? target_env with
    | some source_idx, some target_idx => decide (target_idx > source_idx)
    | _, _ => true
  | _, _ => true

/-- The in-memory Configuration Store (`GitConfig.__init__`, script.py
lines 14-22): five string fields, all defaulting to the empty string. -/
structure GitConfig where
  source_branch : String := ""
  target_branch : String := ""
  commit_message : String := ""
  pr_title : String := ""
  pr_description : String := ""
deriving DecidableEq, Repr

/-- Embedding of `get_bitbucket_url` (script.py lines 168-173). -/
def get_bitbucket_url (r : ExecResult) : String :=
  let res := execute_git_command r
  if !res.1 then "" else pyStrip res.2

/-- The URL normalization inlined in `create_pr` (script.py lines 202-205):
replace every colon by a slash and every `git@` by `https://` when the URL
starts with `git@`, then drop the last four characters when the URL ends
with `.git`. -/
def normalize_remote_url (repo_url : String) : String :=
  let u : String :=
    if ("git@".data).isPrefixOf repo_url.data then
      ⟨replaceGitAt (replaceChar ':' '/' repo_url.data)⟩
    else repo_url
  if (".git".data).isSuffixOf u.data then ⟨u.data.take (u.data.length - 4)⟩ else u

/-- The git commands issued by the PR Executor, in the shapes of
script.py lines 178, 184-185, 193 and 170. -/
inductive GitCmd where
  | add
  | commit (msg : String)
  | push (branch : String)
  | getRemoteUrl
deriving DecidableEq, Repr

/-- Results the environment supplies for each command the Executor may
issue. -/
structure GitEnv where
  addRes : ExecResult
  commitRes : ExecResult
  pushRes : ExecResult
  urlRes : ExecResult

/-- Observable trace of one `create_pr` run: the git commands issued, in
order, and the console messages printed, in order. -/
structure PrTrace where
  cmds : List GitCmd
  msgs : List String
deriving DecidableEq, Repr

/-- Embedding of `create_pr` (script.py lines 175-216). Each step runs only
when the previous one succeeded; a failing step contributes exactly its
labeled error message and ends the run. -/
def create_pr (env : GitEnv) (config : GitConfig) : PrTrace :=
  let r1 := execute_git_command env.addRes
  if !r1.1 then
    ⟨[.add], ["Error staging changes: " ++ r1.2]⟩
  else
    let r2 := execute_git_command env.commitRes
    if !r2.1 then
      ⟨[.add, .commit config.commit_message], ["Error creating commit: " ++ r2.2]⟩
    else
      let current_branch := config.source_branch
      let r3 := execute_git_command env.pushRes
      if !r3.1 then
        ⟨[.add, .commit config.commit_message, .push current_branch],
         ["Error pushing changes: " ++ r3.2]⟩
      else
        let repo_url := get_bitbucket_url env.urlRes
        let cmds : List GitCmd :=
          [.add, .commit config.commit_message, .push current_branch, .getRemoteUrl]
        if repo_url ≠ "" then
          let url := normalize_remote_url repo_url
          ⟨cmds,
           ["✓ Changes pushed successfully!",
            "Please create a pull request in Bitbucket:",
            "URL: " ++ url ++ "/pull-requests/new",
            "Pull Request details:",
            "Source branch: " ++ config.source_branch,
            "Target branch: " ++ config.target_branch,
            "Title: " ++ config.pr_title,
            "Description: " ++ config.pr_description]⟩
        else
          ⟨cmds, ["Could not determine repository URL"]⟩

/-- How `main` (script.py lines 224-277) proceeds after resolving the
current branch: abort, run the Executor directly, or enter the menu loop. -/
inductive MainOutcome where
  | fatalNoBranch
  | runExecutor (config : GitConfig)
  | enterMenu (config : GitConfig)
deriving DecidableEq, Repr

/-- One `if <flag>: config.update_option(key, <flag>)` statement of `main`
(script.py lines 241-248): click passes an absent option as `None`, and
Python truthiness makes both `None` and the empty string skip the update. -/
def bind_option (field_set : GitConfig → String → GitConfig)
    (v : Option String) (c : GitConfig) : GitConfig :=
  match v with
  | some s => if s ≠ "" then field_set c s else c
  | none => c

/-- Embedding of `main` (script.py lines 224-251) up to the point where it
either aborts, invokes `create_pr`, or enters the interactive menu. -/
def main_entry (branchRes : ExecResult)
    (target_branch commit_message pr_title pr_description : Option String)
    (interactive : Bool) : MainOutcome :=
  let current_branch := get_current_branch branchRes
  if current_branch = "" then .fatalNoBranch
  else
    let config : GitConfig := { source_branch := current_branch }
    if !interactive then
      let config := bind_option (fun c v => { c with target_branch := v }) target_branch config
      let config := bind_option (fun c v => { c with commit_message := v }) commit_message config
      let config := bind_option (fun c v => { c with pr_title := v }) pr_title config
      let config := bind_option (fun c v => { c with pr_description := v }) pr_description config
      .runExecutor config
    else
      .enterMenu config

/-- The five configuration fields in the fixed insertion order of
`GitConfig.options` (script.py lines 16-22), as iterated by
`review_config` (script.py line 151). -/
def config_items (c : GitConfig) : List (String × String) :=
  [("source_branch", c.source_branch),
   ("target_branch", c.target_branch),
   ("commit_message", c.commit_message),
   ("pr_title", c.pr_title),
   ("pr_description", c.pr_description)]

/-- `key.replace("_", "-")` from script.py line 150. -/
def hyphenate (k : String) : String :=
  ⟨replaceChar '_' '-' k.data⟩

/-- The `command_parts` list built by `review_config` (script.py
lines 149-153): one `--key "value"` part per non-empty field. -/
def review_command_parts (c : GitConfig) : List String :=
  ((config_items c).filter fun kv => kv.2 ≠ "").map
    fun kv => "--" ++ hyphenate kv.1 ++ " \"" ++ kv.2 ++ "\""

/-- The full non-interactive command string printed by `review_config`
(script.py line 154). -/
def review_command (script_name : String) (c : GitConfig) : String :=
  "python " ++ script_name ++ " " ++ joinSpace (review_command_parts c) ++ " --no-interactive"

/-- The option flags actually declared on `main` by the click decorators
(script.py lines 219-223); the interactive switch declares the two
spellings `--interactive` and `--no-interactive`. -/
def cli_option_flags : List String :=
  ["--target-branch", "--commit-message", "--pr-title", "--pr-description",
   "--interactive", "--no-interactive"]

/-- Whether a line contains the substring `origin/` anywhere. -/
def containsOrigin : List Char → Bool
  | [] => false
  | c :: cs => ("origin/".data).isPrefixOf (c :: cs) || containsOrigin cs

/-- Whether a line contains the substring `origin/HEAD` anywhere. -/
def containsOriginHead : List Char → Bool
  | [] => false
  | c :: cs => ("origin/HEAD".data).isPrefixOf (c :: cs) || containsOriginHead cs

/-- Removal of a leading `origin/` prefix only, as claim C4 words the
cleaning step (contrast with `stripOriginOnce`, which is what the code
does). -/
def stripLeadingOrigin (l : List Char) : List Char :=
  if ("origin/".data).isPrefixOf l then l.drop 7 else l

/-- `get_remote_branches` as claim C4 words it: one name per line, trimmed,
discarding any line referencing the symbolic `HEAD` pointer (modelled as
containing the substring `origin/HEAD`), stripping a leading `origin/`
prefix, sorted ascending; empty on command failure. -/
def get_remote_branches_claim (r : ExecResult) : List String :=
  let res := execute_git_command r
  if !res.1 then []
  else
    sortStrings ((((splitLinesChars res.2.data).map trimChars).filter
      fun l => decide (l ≠ []) && !containsOriginHead l).map
        fun l => (⟨stripLeadingOrigin l⟩ : String))

/-- Conversion of only the first colon into a slash, as claim C3 words the
SSH rewrite (contrast with `replaceChar`, which rewrites every colon). -/
def replaceFirstColon : List Char → List Char
  | [] => []
  | ':' :: rest => '/' :: rest
  | c :: rest => c :: replaceFirstColon rest

/-- The URL normalization as claim C3 words it: replace the `git@` prefix
by `https://`, convert the colon following it into the first path
separator, and strip a trailing `.git` suffix. -/
def normalize_remote_url_claim (repo_url : String) : String :=
  let u : String :=
    if ("git@".data).isPrefixOf repo_url.data then
      ⟨'h' :: 't' :: 't' :: 'p' :: 's' :: ':' :: '/' :: '/' ::
        replaceFirstColon (repo_url.data.drop 4)⟩
    else repo_url
  if (".git".data).isSuffixOf u.data then ⟨u.data.take (u.data.length - 4)⟩ else u

theorem pyLeb_total : ∀ a b : List Char, pyLeb a b = true ∨ pyLeb b a = true := by
  intro a
  induction a with
  | nil => intro b; left; rfl
  | cons x xs ih =>
    intro b
    cases b with
    | nil => right; rfl
    | cons y ys =>
      by_cases h1 : x.toNat < y.toNat
      · left; simp [pyLeb, h1]
      · by_cases h2 : y.toNat < x.toNat
        · right; simp [pyLeb, h2]
        · rcases ih ys with h | h
          · left; simp [pyLeb, h1, h2, h]
          · right; simp [pyLeb, h1, h2, h]

theorem pyLeb_trans : ∀ a b c : List Char,
    pyLeb a b = true → pyLeb b c = true → pyLeb a c = true := by
  intro a
  induction a with
  | nil => intro b c _ _; rfl
  | cons x xs ih =>
    intro b c hab hbc
    cases b with
    | nil => simp [pyLeb] at hab
    | cons y ys =>
      cases c with
      | nil => simp [pyLeb] at hbc
      | cons z zs =>
        simp only [pyLeb] at hab hbc ⊢
        by_cases hxy : x.toNat < y.toNat <;> by_cases hyz : y.toNat < z.toNat <;>
          simp [hxy, hyz] at hab hbc ⊢
        · left; omega
        · obtain ⟨h1, h2⟩ := hbc; left; omega
        · obtain ⟨h1, h2⟩ := hab; left; omega
        · obtain ⟨h1, h2⟩ := hab
          obtain ⟨h3, h4⟩ := hbc
          right
          exact ⟨by omega, ih ys zs h2 h4⟩

instance : IsTotal String pyLe :=
  ⟨fun s t => pyLeb_total s.data t.data⟩

instance : IsTrans String pyLe :=
  ⟨fun a b c => pyLeb_trans a.data b.data c.data⟩

/-- The accumulating loop of `get_remote_branches`, rewritten as a
filter-map pipeline over the split lines. -/
theorem foldl_clean_eq (lines : List (List Char)) (acc : List String) :
    (lines.foldl (fun acc line =>
      let branch := trimChars line
      if keepLine branch then acc ++ [cleanName branch] else acc) acc)
      = acc ++ ((lines.map trimChars).filter keepLine).map cleanName := by
  induction lines generalizing acc with
  | nil => simp
  | cons l ls ih =>
    by_cases h : keepLine (trimChars l) <;>
      simp [List.filter_cons, h, ih, List.append_assoc]

/-- On a successful listing, `get_remote_branches` is the sorted
filter-map pipeline. -/
theorem get_remote_branches_ok (r : ExecResult) (h : r.ok = true) :
    get_remote_branches r =
      sortStrings ((((splitLinesChars (trimChars r.stdout.data)).map
        trimChars).filter keepLine).map cleanName) := by
  unfold get_remote_branches
  simp [execute_git_command, h, pyStrip, foldl_clean_eq]

/-- A string starting with character `c` never equals one whose head
is different. -/
theorem append_ne_of_head_ne (a s b : String) (c : Char)
    (ha : a.data.head? = some c) (hb : b.data.head? ≠ some c) : a ++ s ≠ b := by
  intro h
  apply hb
  rw [← congrArg String.data h, String.data_append, List.head?_append, ha]
  rfl

/-- `bind_option` never touches a field its setter leaves alone. -/
theorem bind_option_source (f : GitConfig → String → GitConfig)
    (v : Option String) (c : GitConfig)
    (h : ∀ c s, (f c s).source_branch = c.source_branch) :
    (bind_option f v c).source_branch = c.source_branch := by
  cases v with
  | none => rfl
  | some s =>
    by_cases hs : s ≠ "" <;> simp [bind_option, hs, h]

/-- Lines with no `origin/` substring pass through the cleaning step
unchanged. -/
theorem stripOriginOnce_of_not_contains (l : List Char)
    (h : containsOrigin l = false) : stripOriginOnce l = l := by
  induction l with
  | nil => rfl
  | cons c cs ih =>
    rw [containsOrigin] at h
    simp only [Bool.or_eq_false_iff] at h
    rw [stripOriginOnce, if_neg (by simp [h.1]), ih h.2]
/-- Claim C1: for branch names that are both environment-shaped with
prefixes present in the order table, `is_valid_target_branch` returns true
iff the index of the target prefix is strictly greater than the index of
the source prefix; in particular sbx1 to dev2 is valid while dev1 to sbx2,
dev1 to dev2 and uat1 to dev1 are not. -/
theorem C1_forward_promotion :
    (∀ (source target se te : String) (si ti : Nat),
      envPrefix source = some se → envPrefix target = some te →
      env_order.indexOf? se = some si → env_order.indexOf? te = some ti →
      (is_valid_target_branch source target = true ↔ si < ti)) ∧
    is_valid_target_branch "sbx1" "dev2" = true ∧
    is_valid_target_branch "dev1" "sbx2" = false ∧
    is_valid_target_branch "dev1" "dev2" = false ∧
    is_valid_target_branch "uat1" "dev1" = false := by
  refine ⟨?_, by decide, by decide, by decide, by decide⟩
  intro source target se te si ti hs ht hsi hti
  simp [is_valid_target_branch, hs, ht, hsi, hti]

/-- Witness for C1 at the concrete pair sbx1, dev2. -/
theorem C1_forward_promotion_witness :
    is_valid_target_branch "sbx1" "dev2" = true :=
  (C1_forward_promotion.1 "sbx1" "dev2" "sbx" "dev" 0 1
    (by decide) (by decide) (by decide) (by decide)).mpr (by decide)

/-- Claim C2: when either branch name is not environment-shaped, or an
extracted prefix is absent from the order table, `is_valid_target_branch`
returns true; in particular for feature-x against dev2 and qa1 against
dev1. -/
theorem C2_unconstrained_pairs :
    (∀ source target : String,
      (envPrefix source = none ∨ envPrefix target = none ∨
       (∃ se, envPrefix source = some se ∧ se ∉ env_order) ∨
       (∃ te, envPrefix target = some te ∧ te ∉ env_order)) →
      is_valid_target_branch source target = true) ∧
    is_valid_target_branch "feature-x" "dev2" = true ∧
    is_valid_target_branch "qa1" "dev1" = true := by
  refine ⟨?_, by decide, by decide⟩
  intro source target h
  rcases h with h | h | ⟨se, hse, hmem⟩ | ⟨te, hte, hmem⟩
  · simp [is_valid_target_branch, h]
  · cases hs : envPrefix source <;> simp [is_valid_target_branch, hs, h]
  · have hnone : env_order.indexOf? se = none :=
      List.indexOf?_eq_none_iff.mpr fun x hx hbeq => hmem (beq_iff_eq.mp hbeq ▸ hx)
    cases ht : envPrefix target <;>
      simp [is_valid_target_branch, hse, ht, hnone]
  · have hnone : env_order.indexOf? te = none :=
      List.indexOf?_eq_none_iff.mpr fun x hx hbeq => hmem (beq_iff_eq.mp hbeq ▸ hx)
    cases hs : envPrefix source with
    | none => simp [is_valid_target_branch, hs]
    | some se2 =>
      cases hi : env_order.indexOf? se2 <;>
        simp [is_valid_target_branch, hs, hte, hnone, hi]

/-- Witness for C2 at the concrete pair feature-x, dev2. -/
theorem C2_unconstrained_pairs_witness :
    is_valid_target_branch "feature-x" "dev2" = true :=
  C2_unconstrained_pairs.1 "feature-x" "dev2" (Or.inl (by decide))

/-- Claim C3 counterexample: on a remote URL with a second colon, the code
rewrites every colon, not only the one following `git@`. -/
theorem C3_counterexample :
    normalize_remote_url "git@example.com:a:b" = "https://example.com/a/b" ∧
    normalize_remote_url_claim "git@example.com:a:b" = "https://example.com/a:b" ∧
    normalize_remote_url "git@example.com:a:b" ≠
      normalize_remote_url_claim "git@example.com:a:b" := by
  refine ⟨by decide, by decide, by decide⟩

/-- Claim C3 amended: every colon becomes a slash and every `git@`
occurrence becomes `https://` when the URL starts with `git@`; a trailing
`.git` is stripped; a URL with neither feature is unchanged; the two
cited examples hold. -/
theorem C3_url_normalization :
    normalize_remote_url "git@example.com:team/repo.git" = "https://example.com/team/repo" ∧
    normalize_remote_url "https://example.com/team/repo" = "https://example.com/team/repo" ∧
    (∀ u : String, ("git@".data).isPrefixOf u.data = false →
      (".git".data).isSuffixOf u.data = false → normalize_remote_url u = u) := by
  refine ⟨by decide, by decide, ?_⟩
  intro u h1 h2
  unfold normalize_remote_url
  simp [h1, h2]

/-- Witness for C3 amended, at a URL that is neither SSH-style nor
`.git`-suffixed. -/
theorem C3_url_normalization_witness :
    normalize_remote_url "https://example.com/x" = "https://example.com/x" :=
  C3_url_normalization.2.2 "https://example.com/x" (by decide) (by decide)

/-- Claim C4 counterexample: the code removes the first `origin/`
occurrence anywhere in the line, not only a leading prefix. -/
theorem C4_counterexample :
    get_remote_branches ⟨true, "foo origin/bar", ""⟩ = ["foo bar"] ∧
    get_remote_branches_claim ⟨true, "foo origin/bar", ""⟩ = ["foo origin/bar"] ∧
    get_remote_branches ⟨true, "foo origin/bar", ""⟩ ≠
      get_remote_branches_claim ⟨true, "foo origin/bar", ""⟩ := by
  refine ⟨by decide, by decide, by decide⟩

/-- Claim C4 amended: empty on failure, result sorted ascending, and on the
cited example the HEAD line is dropped, prefixes stripped, names sorted. -/
theorem C4_remote_branch_parsing :
    (∀ r : ExecResult, r.ok = false → get_remote_branches r = []) ∧
    (∀ r : ExecResult, (get_remote_branches r).Sorted pyLe) ∧
    (∀ r : ExecResult, r.ok = true →
      get_remote_branches r =
        sortStrings ((((splitLinesChars (trimChars r.stdout.data)).map
          trimChars).filter keepLine).map cleanName)) ∧
    get_remote_branches ⟨true, "  origin/HEAD -> origin/main\norigin/dev1\norigin/uat2", ""⟩ =
      ["dev1", "uat2"] := by
  refine ⟨?_, ?_, ?_, by decide⟩
  · intro r h
    simp [get_remote_branches, execute_git_command, h]
  · intro r
    unfold get_remote_branches
    dsimp only
    split
    · exact List.sorted_nil
    · exact List.sorted_insertionSort pyLe _
  · exact get_remote_branches_ok

/-- Witness for C4 amended: the failure case at a concrete failing result. -/
theorem C4_remote_branch_parsing_witness :
    get_remote_branches ⟨false, "", "fatal"⟩ = [] :=
  C4_remote_branch_parsing.1 ⟨false, "", "fatal"⟩ rfl

/-- Claim C10: the parse drops only lines starting with `origin/HEAD`,
removes only the first `origin/` substring occurrence, keeps other
remotes intact, and keeps a non-origin HEAD pointer line. -/
theorem C10_parse_details :
    (∀ r : ExecResult, r.ok = true →
      get_remote_branches r =
        sortStrings ((((splitLinesChars (trimChars r.stdout.data)).map
          trimChars).filter keepLine).map cleanName)) ∧
    (∀ l : List Char, containsOrigin l = false → cleanName l = ⟨l⟩) ∧
    get_remote_branches ⟨true, "upstream/foo\nupstream/HEAD -> upstream/main", ""⟩ =
      ["upstream/HEAD -> upstream/main", "upstream/foo"] ∧
    get_remote_branches ⟨true, "origin/a/origin/b", ""⟩ = ["a/origin/b"] := by
  refine ⟨get_remote_branches_ok, ?_, by decide, by decide⟩
  intro l h
  simp [cleanName, stripOriginOnce_of_not_contains l h]

/-- Witness for C10, applying its pipeline part at a concrete listing. -/
theorem C10_parse_details_witness :
    get_remote_branches ⟨true, "origin/dev1", ""⟩ =
      sortStrings ((((splitLinesChars (trimChars ("origin/dev1" : String).data)).map
        trimChars).filter keepLine).map cleanName) :=
  C10_parse_details.1 ⟨true, "origin/dev1", ""⟩ rfl

/-- Trace of `create_pr` when staging fails (script.py lines 178-181). -/
theorem create_pr_stage_fail (env : GitEnv) (config : GitConfig)
    (h1 : env.addRes.ok = false) :
    create_pr env config =
      ⟨[.add], ["Error staging changes: " ++ pyStrip env.addRes.stderr]⟩ := by
  simp [create_pr, execute_git_command, h1]

/-- Trace of `create_pr` when the commit fails (script.py lines 184-189). -/
theorem create_pr_commit_fail (env : GitEnv) (config : GitConfig)
    (h1 : env.addRes.ok = true) (h2 : env.commitRes.ok = false) :
    create_pr env config =
      ⟨[.add, .commit config.commit_message],
       ["Error creating commit: " ++ pyStrip env.commitRes.stderr]⟩ := by
  simp [create_pr, execute_git_command, h1, h2]

/-- Trace of `create_pr` when the push fails (script.py lines 192-196). -/
theorem create_pr_push_fail (env : GitEnv) (config : GitConfig)
    (h1 : env.addRes.ok = true) (h2 : env.commitRes.ok = true)
    (h3 : env.pushRes.ok = false) :
    create_pr env config =
      ⟨[.add, .commit config.commit_message, .push config.source_branch],
       ["Error pushing changes: " ++ pyStrip env.pushRes.stderr]⟩ := by
  simp [create_pr, execute_git_command, h1, h2, h3]

/-- Trace of `create_pr` when the remote URL comes back empty
(script.py lines 199, 215-216). -/
theorem create_pr_url_empty (env : GitEnv) (config : GitConfig)
    (h1 : env.addRes.ok = true) (h2 : env.commitRes.ok = true)
    (h3 : env.pushRes.ok = true) (hurl : get_bitbucket_url env.urlRes = "") :
    create_pr env config =
      ⟨[.add, .commit config.commit_message, .push config.source_branch, .getRemoteUrl],
       ["Could not determine repository URL"]⟩ := by
  simp [create_pr, execute_git_command, h1, h2, h3, hurl]

/-- Trace of `create_pr` on full success (script.py lines 199-214). -/
theorem create_pr_all_ok (env : GitEnv) (config : GitConfig)
    (h1 : env.addRes.ok = true) (h2 : env.commitRes.ok = true)
    (h3 : env.pushRes.ok = true) (hurl : ¬ get_bitbucket_url env.urlRes = "") :
    create_pr env config =
      ⟨[.add, .commit config.commit_message, .push config.source_branch, .getRemoteUrl],
       ["✓ Changes pushed successfully!",
        "Please create a pull request in Bitbucket:",
        "URL: " ++ normalize_remote_url (get_bitbucket_url env.urlRes) ++ "/pull-requests/new",
        "Pull Request details:",
        "Source branch: " ++ config.source_branch,
        "Target branch: " ++ config.target_branch,
        "Title: " ++ config.pr_title,
        "Description: " ++ config.pr_description]⟩ := by
  simp [create_pr, execute_git_command, h1, h2, h3, hurl]

/-- Claim C5: the Executor stages, commits, pushes and reads the remote
URL strictly in that order, each step only after the previous succeeded,
and a failing step yields exactly its one labeled error and stops. -/
theorem C5_executor_order (env : GitEnv) (config : GitConfig) :
    (env.addRes.ok = false →
      create_pr env config =
        ⟨[.add], ["Error staging changes: " ++ pyStrip env.addRes.stderr]⟩) ∧
    (env.addRes.ok = true → env.commitRes.ok = false →
      create_pr env config =
        ⟨[.add, .commit config.commit_message],
         ["Error creating commit: " ++ pyStrip env.commitRes.stderr]⟩) ∧
    (env.addRes.ok = true → env.commitRes.ok = true → env.pushRes.ok = false →
      create_pr env config =
        ⟨[.add, .commit config.commit_message, .push config.source_branch],
         ["Error pushing changes: " ++ pyStrip env.pushRes.stderr]⟩) ∧
    (env.addRes.ok = true → env.commitRes.ok = true → env.pushRes.ok = true →
      (create_pr env config).cmds =
        [.add, .commit config.commit_message, .push config.source_branch, .getRemoteUrl]) := by
  refine ⟨create_pr_stage_fail env config,
          create_pr_commit_fail env config,
          create_pr_push_fail env config, ?_⟩
  intro h1 h2 h3
  by_cases hurl : get_bitbucket_url env.urlRes = ""
  · rw [create_pr_url_empty env config h1 h2 h3 hurl]
  · rw [create_pr_all_ok env config h1 h2 h3 hurl]

/-- Witness for C5: a failed staging step at a concrete environment. -/
theorem C5_executor_order_witness :
    create_pr ⟨⟨false, "", "boom"⟩, ⟨true, "", ""⟩, ⟨true, "", ""⟩, ⟨true, "", ""⟩⟩ {} =
      ⟨[.add], ["Error staging changes: boom"]⟩ := by
  have h := (C5_executor_order
    ⟨⟨false, "", "boom"⟩, ⟨true, "", ""⟩, ⟨true, "", ""⟩, ⟨true, "", ""⟩⟩ {}).1 rfl
  simpa using h

/-- Claim C8: the URL-read error can appear only after staging, commit and
push all succeeded; it is then the only message, the read is the last git
command, and nothing is rolled back. -/
theorem C8_url_read_failure (env : GitEnv) (config : GitConfig) :
    ("Could not determine repository URL" ∈ (create_pr env config).msgs →
      env.addRes.ok = true ∧ env.commitRes.ok = true ∧ env.pushRes.ok = true ∧
      (create_pr env config).cmds =
        [.add, .commit config.commit_message, .push config.source_branch, .getRemoteUrl] ∧
      (create_pr env config).msgs = ["Could not determine repository URL"]) ∧
    (env.addRes.ok = true → env.commitRes.ok = true → env.pushRes.ok = true →
      env.urlRes.ok = false →
      create_pr env config =
        ⟨[.add, .commit config.commit_message, .push config.source_branch, .getRemoteUrl],
         ["Could not determine repository URL"]⟩) := by
  constructor
  · intro hmem
    by_cases h1 : env.addRes.ok
    · by_cases h2 : env.commitRes.ok
      · by_cases h3 : env.pushRes.ok
        · by_cases hurl : get_bitbucket_url env.urlRes = ""
          · rw [create_pr_url_empty env config h1 h2 h3 hurl]
            exact ⟨h1, h2, h3, rfl, rfl⟩
          · rw [create_pr_all_ok env config h1 h2 h3 hurl] at hmem
            simp only [List.mem_cons, List.not_mem_nil, or_false] at hmem
            rcases hmem with h | h | h | h | h | h | h | h
            · exact absurd h (by decide)
            · exact absurd h (by decide)
            · rw [String.append_assoc] at h
              exact absurd h.symm
                (append_ne_of_head_ne "URL: " _ _ 'U' rfl (by decide))
            · exact absurd h (by decide)
            · exact absurd h.symm
                (append_ne_of_head_ne "Source branch: " _ _ 'S' rfl (by decide))
            · exact absurd h.symm
                (append_ne_of_head_ne "Target branch: " _ _ 'T' rfl (by decide))
            · exact absurd h.symm
                (append_ne_of_head_ne "Title: " _ _ 'T' rfl (by decide))
            · exact absurd h.symm
                (append_ne_of_head_ne "Description: " _ _ 'D' rfl (by decide))
        · rw [create_pr_push_fail env config h1 h2 (by simpa using h3)] at hmem
          simp only [List.mem_cons, List.not_mem_nil, or_false] at hmem
          exact absurd hmem.symm
            (append_ne_of_head_ne "Error pushing changes: " _ _ 'E' rfl (by decide))
      · rw [create_pr_commit_fail env config h1 (by simpa using h2)] at hmem
        simp only [List.mem_cons, List.not_mem_nil, or_false] at hmem
        exact absurd hmem.symm
          (append_ne_of_head_ne "Error creating commit: " _ _ 'E' rfl (by decide))
    · rw [create_pr_stage_fail env config (by simpa using h1)] at hmem
      simp only [List.mem_cons, List.not_mem_nil, or_false] at hmem
      exact absurd hmem.symm
        (append_ne_of_head_ne "Error staging changes: " _ _ 'E' rfl (by decide))
  · intro h1 h2 h3 h4
    exact create_pr_url_empty env config h1 h2 h3
      (by simp [get_bitbucket_url, execute_git_command, h4])

/-- Witness for C8 at a concrete environment whose URL read fails. -/
theorem C8_url_read_failure_witness :
    create_pr ⟨⟨true, "", ""⟩, ⟨true, "", ""⟩, ⟨true, "", ""⟩, ⟨false, "", "no url"⟩⟩
        { source_branch := "dev1", commit_message := "fix" } =
      ⟨[.add, .commit "fix", .push "dev1", .getRemoteUrl],
       ["Could not determine repository URL"]⟩ := by
  have h := (C8_url_read_failure
    ⟨⟨true, "", ""⟩, ⟨true, "", ""⟩, ⟨true, "", ""⟩, ⟨false, "", "no url"⟩⟩
    { source_branch := "dev1", commit_message := "fix" }).2 rfl rfl rfl rfl
  simpa using h

/-- Claim C6: with non-interactive mode and only the commit message set to
"fix", the store holds the current branch as source, "fix" as commit
message, all other fields empty, and the Executor is invoked directly. -/
theorem C6_noninteractive_binding (r : ExecResult)
    (h : get_current_branch r ≠ "") :
    main_entry r none (some "fix") none none false =
      .runExecutor { source_branch := get_current_branch r, commit_message := "fix" } := by
  simp [main_entry, h, bind_option]

/-- Witness for C6 with the current branch resolving to main. -/
theorem C6_noninteractive_binding_witness :
    main_entry ⟨true, "main", ""⟩ none (some "fix") none none false =
      .runExecutor { source_branch := "main", commit_message := "fix" } := by
  have h := C6_noninteractive_binding ⟨true, "main", ""⟩ (by decide)
  simpa using h

/-- Claim C7: `get_current_branch` yields the trimmed branch name on
success and the empty string on failure; an empty result makes `main`
abort before the store, the menu or the Executor; hence the source branch
is populated whenever the menu or Executor runs. -/
theorem C7_current_branch_guard :
    (∀ r : ExecResult, r.ok = true → get_current_branch r = pyStrip r.stdout) ∧
    (∀ r : ExecResult, r.ok = false → get_current_branch r = "") ∧
    (∀ (r : ExecResult) (t c p d : Option String) (i : Bool),
      get_current_branch r = "" → main_entry r t c p d i = .fatalNoBranch) ∧
    (∀ (r : ExecResult) (t c p d : Option String) (i : Bool) (config : GitConfig),
      main_entry r t c p d i = .runExecutor config ∨
        main_entry r t c p d i = .enterMenu config →
      config.source_branch ≠ "") := by
  refine ⟨?_, ?_, ?_, ?_⟩
  · intro r h; simp [get_current_branch, execute_git_command, h]
  · intro r h; simp [get_current_branch, execute_git_command, h]
  · intro r t c p d i h; simp [main_entry, h]
  · intro r t c p d i config hout
    by_cases hcur : get_current_branch r = ""
    · rcases hout with h | h <;> simp [main_entry, hcur] at h
    · cases i with
      | true =>
        rcases hout with h | h <;> simp [main_entry, hcur] at h
        rw [← h]
        exact hcur
      | false =>
        rcases hout with h | h <;> simp [main_entry, hcur] at h
        have hsrc : config.source_branch = get_current_branch r := by
          rw [← h]
          rw [bind_option_source _ _ _ (by intro c s; rfl),
              bind_option_source _ _ _ (by intro c s; rfl),
              bind_option_source _ _ _ (by intro c s; rfl),
              bind_option_source _ _ _ (by intro c s; rfl)]
        rw [hsrc]
        exact hcur

/-- Witness for C7 at a concrete failing branch query. -/
theorem C7_current_branch_guard_witness :
    main_entry ⟨false, "", "not a git repo"⟩ none none none none true = .fatalNoBranch :=
  C7_current_branch_guard.2.2.1 ⟨false, "", "not a git repo"⟩ none none none none true
    (by decide)

/-- Every element of a space-joined list occurs inside the joined string. -/
theorem joinSpace_mem_infix (x : String) (l : List String) (hx : x ∈ l) :
    ∃ s t : String, joinSpace l = s ++ x ++ t := by
  induction l with
  | nil => cases hx
  | cons a as ih =>
    rcases List.mem_cons.mp hx with rfl | hx
    · cases as with
      | nil => exact ⟨"", "", by simp [joinSpace]⟩
      | cons b bs =>
        exact ⟨"", " " ++ joinSpace (b :: bs), by simp [joinSpace, String.append_assoc]⟩
    · cases as with
      | nil => cases hx
      | cons b bs =>
        obtain ⟨s, t, hst⟩ := ih hx
        exact ⟨a ++ " " ++ s, t, by simp [joinSpace, hst, String.append_assoc]⟩

/-- Claim C9: whenever the source branch is non-empty, the review command
string contains a `--source-branch "<value>"` flag, yet `--source-branch`
is not among the option flags the CLI declares. -/
theorem C9_phantom_source_flag (script_name : String) (c : GitConfig)
    (h : c.source_branch ≠ "") :
    (∃ s t : String, review_command script_name c =
      s ++ ("--source-branch \"" ++ c.source_branch ++ "\"") ++ t) ∧
    "--source-branch" ∉ cli_option_flags := by
  refine ⟨?_, by decide⟩
  have hfilter : ("source_branch", c.source_branch) ∈
      (config_items c).filter (fun kv => kv.2 ≠ "") := by
    apply List.mem_filter.mpr
    exact ⟨by simp [config_items], by simpa using h⟩
  have hmem : ("--source-branch \"" ++ c.source_branch ++ "\"") ∈ review_command_parts c :=
    List.mem_map.mpr ⟨("source_branch", c.source_branch), hfilter, rfl⟩
  obtain ⟨s, t, hst⟩ := joinSpace_mem_infix _ _ hmem
  refine ⟨"python " ++ script_name ++ " " ++ s, t ++ " --no-interactive", ?_⟩
  simp [review_command, hst, String.append_assoc]

/-- Witness for C9 at a concrete configuration. -/
theorem C9_phantom_source_flag_witness :
    (∃ s t : String, review_command "script.py" { source_branch := "main" } =
      s ++ ("--source-branch \"" ++ ("main" : String) ++ "\"") ++ t) ∧
    "--source-branch" ∉ cli_option_flags :=
  C9_phantom_source_flag "script.py" { source_branch := "main" } (by decide)
